import Mathlib

/-!
Verification development for the anthill directory-search and messaging-quota
subsystem (anthill/people/views.py).  The search pipeline is embedded from the
source of the `search` view; the Profile-model helpers that the views call but
whose definitions are not part of the snapshot (`search_by_distance`,
`can_send_email`, `record_email_sent`) are modelled from the specification, as
marked on their doc comments.
-/

namespace Anthill

/-- Strip whitespace from both ends of a string, as Python str.strip() does on
the tag fragments in the search view. -/
def pyStrip (s : String) : String :=
  String.mk (((s.toList.dropWhile Char.isWhitespace).reverse.dropWhile
    Char.isWhitespace).reverse)

/-- Decide whether the first character list is an initial segment of the
second. -/
def leadsWith : List Char → List Char → Bool
  | [], _ => true
  | _ :: _, [] => false
  | a :: as, b :: bs => a == b && leadsWith as bs

/-- Decide whether the first character list occurs contiguously somewhere
inside the second (the semantics of the Python in operator on strings). -/
def occursIn (needle : List Char) : List Char → Bool
  | [] => leadsWith needle []
  | b :: bs => leadsWith needle (b :: bs) || occursIn needle bs

/-- Characters of a string, lower-cased. -/
def lowerChars (s : String) : List Char :=
  s.toList.map Char.toLower

/-- Case-insensitive substring containment, the semantics of a Django
icontains lookup: the lower-cased needle occurs inside the lower-cased hay. -/
def icontains (hay needle : String) : Bool :=
  occursIn (lowerChars needle) (lowerChars hay)

/-- Geographic coordinate (latitude, longitude), with rational components. -/
structure Coord where
  lat : Rat
  lon : Rat
  deriving DecidableEq

/-- One directory record: the denormalized User/Profile pair that the search
view filters.  Fields not used by the subsystem are omitted. -/
structure Profile where
  identity : Nat
  firstName : String
  role : String
  skills : String
  location : Option Coord
  deriving DecidableEq

/-- The cleaned data of a submitted SearchForm, plus the requesting user's id.
Empty strings model blank optional fields, matching Python truthiness tests. -/
structure SearchQuery where
  excludeIdentity : Nat
  skills : String
  position : String
  name : String
  location : Option Coord
  location_range : Rat
  deriving DecidableEq

/-- Line 36 of the view: exclude the requesting user's own record. -/
def excludeUser (excludeIdentity : Nat) (users : List Profile) : List Profile :=
  users.filter (fun p => decide (p.identity ≠ excludeIdentity))

/-- Lines 37-40 of the view: when the skills field is non-blank, split it on
commas, strip each tag, and keep only records whose skills string icontains
every tag (one chained filter per tag). -/
def applySkillFilter (skills : String) (users : List Profile) : List Profile :=
  if skills ≠ "" then
    ((skills.splitOn (",")).map pyStrip).foldl
      (fun us tag => us.filter (fun p => icontains p.skills tag)) users
  else users

/-- Lines 41-42 of the view: exact role match when a position was chosen. -/
def applyRoleFilter (position : String) (users : List Profile) : List Profile :=
  if position ≠ "" then users.filter (fun p => decide (p.role = position))
  else users

/-- Lines 43-44 of the view: case-insensitive substring match on first name. -/
def applyNameFilter (name : String) (users : List Profile) : List Profile :=
  if name ≠ "" then users.filter (fun p => icontains p.firstName name)
  else users

/-- Distance sort key of a record: its distance to the origin, with an unused
default for records without a location (such records are filtered out before
the key is ever consulted). -/
def distKey (d : Coord → Coord → Rat) (origin : Coord) (p : Profile) : Rat :=
  match p.location with
  | some c => d origin c
  | none => 0

/-- Boolean ordering used to rank survivors of the distance filter: ascending
distance, ties broken by ascending identity. -/
def distLeB (d : Coord → Coord → Rat) (origin : Coord) (p q : Profile) : Bool :=
  decide (distKey d origin p < distKey d origin q) ||
    (decide (distKey d origin p = distKey d origin q) &&
      decide (p.identity ≤ q.identity))

/-- Propositional form of the ranking order on search survivors. -/
def distRel (d : Coord → Coord → Rat) (origin : Coord) (p q : Profile) : Prop :=
  distLeB d origin p q = true

instance (d : Coord → Coord → Rat) (o : Coord) : DecidableRel (distRel d o) :=
  fun p q => inferInstanceAs (Decidable (distLeB d o p q = true))

instance (d : Coord → Coord → Rat) (o : Coord) : IsTotal Profile (distRel d o) where
  total p q := by
    unfold distRel distLeB
    rcases lt_trichotomy (distKey d o p) (distKey d o q) with h | h | h
    · left; simp [h]
    · rcases Nat.le_total p.identity q.identity with h2 | h2
      · left; simp [h, h2]
      · right; simp [h.symm, h2]
    · right; simp [h]

instance (d : Coord → Coord → Rat) (o : Coord) : IsTrans Profile (distRel d o) where
  trans a b c hab hbc := by
    unfold distRel distLeB at hab hbc ⊢
    simp only [Bool.or_eq_true, Bool.and_eq_true, decide_eq_true_eq] at hab hbc ⊢
    rcases hab with h1 | ⟨h1, h2⟩ <;> rcases hbc with h3 | ⟨h3, h4⟩
    · exact Or.inl (h1.trans h3)
    · exact Or.inl (h3 ▸ h1)
    · exact Or.inl (h1 ▸ h3)
    · exact Or.inr ⟨h1.trans h3, h2.trans h4⟩

/-- Predicate of the distance filter: the record has a location and that
location is within the requested radius of the origin; a record lacking a
location fails unconditionally. -/
def withinRadius (d : Coord → Coord → Rat) (origin : Coord) (radius : Rat)
    (p : Profile) : Bool :=
  match p.location with
  | some c => decide (d origin c ≤ radius)
  | none => false

/-- Modelled from the spec: the Profile manager method search_by_distance is
called at line 46 of the view but its definition is not part of the source
snapshot.  Per spec section 4.2 it keeps records whose great-circle distance
to the origin is at most the radius (a record lacking a location failing
unconditionally) and sorts the survivors by ascending distance, ties broken by
identity ascending.  The great-circle distance formula itself is kept as a
parameter d, so every theorem below holds for haversine in particular. -/
def search_by_distance (d : Coord → Coord → Rat) (origin : Coord) (radius : Rat)
    (users : List Profile) : List Profile :=
  List.insertionSort (distRel d origin)
    (users.filter (withinRadius d origin radius))

/-- The non-distance stages of the pipeline in the order the code applies
them: exclusion, then skills, then role, then name. -/
def preFilter (pop : List Profile) (q : SearchQuery) : List Profile :=
  applyNameFilter q.name (applyRoleFilter q.position
    (applySkillFilter q.skills (excludeUser q.excludeIdentity pop)))

/-- The search view, lines 36-46: exclusion and the three attribute filters in
code order, then the distance filter and ranking when a location was given. -/
def search (d : Coord → Coord → Rat) (pop : List Profile) (q : SearchQuery) :
    List Profile :=
  match q.location with
  | some origin => search_by_distance d origin q.location_range (preFilter pop q)
  | none => preFilter pop q

/-- The non-distance stages in the order the spec fixes: exclusion, then role,
then name, then skills. -/
def preFilterSpec (pop : List Profile) (q : SearchQuery) : List Profile :=
  applySkillFilter q.skills (applyNameFilter q.name
    (applyRoleFilter q.position (excludeUser q.excludeIdentity pop)))

/-- The pipeline with the attribute stages in the spec's fixed order (role,
name, skills) instead of the code's order, distance last in both. -/
def searchSpecOrder (d : Coord → Coord → Rat) (pop : List Profile)
    (q : SearchQuery) : List Profile :=
  match q.location with
  | some origin =>
      search_by_distance d origin q.location_range (preFilterSpec pop q)
  | none => preFilterSpec pop q

/-- The non-distance stages with the skill stage omitted entirely. -/
def preFilterNoSkill (pop : List Profile) (q : SearchQuery) : List Profile :=
  applyNameFilter q.name (applyRoleFilter q.position
    (excludeUser q.excludeIdentity pop))

/-- The pipeline with the skill stage omitted entirely. -/
def searchNoSkill (d : Coord → Coord → Rat) (pop : List Profile)
    (q : SearchQuery) : List Profile :=
  match q.location with
  | some origin =>
      search_by_distance d origin q.location_range (preFilterNoSkill pop q)
  | none => preFilterNoSkill pop q

/-- Configuration of the quota limiter: the trailing window length (seconds)
and the maximal number of sends allowed inside one window. -/
structure QuotaConfig where
  windowDuration : Int
  maxSendsPerWindow : Nat
  deriving DecidableEq

/-- Modelled from the spec: lazy eviction of the per-identity timestamp list;
entries strictly older than now - windowDuration are dropped on each access. -/
def prune (w now : Int) (ts : List Int) : List Int :=
  ts.filter (fun s => decide (now - w ≤ s))

/-- The two observable answers of the quota limiter. -/
inductive SendAnswer
  | Allowed
  | Throttled
  deriving DecidableEq

/-- Modelled from the spec: Profile.can_send_email, called at lines 150 and
157 of the contact view but not part of the source snapshot.  It prunes the
sender's timestamps and answers Allowed when fewer than maxSendsPerWindow
remain; it records nothing.  The pair returned is (answer, state after). -/
def canSend (cfg : QuotaConfig) (now : Int) (ts : List Int) :
    SendAnswer × List Int :=
  (if (prune cfg.windowDuration now ts).length < cfg.maxSendsPerWindow then
    SendAnswer.Allowed
   else SendAnswer.Throttled, prune cfg.windowDuration now ts)

/-- Modelled from the spec: Profile.record_email_sent, called at line 167 of
the contact view but not part of the source snapshot.  It appends now to the
sender's timestamp list after pruning. -/
def recordSend (cfg : QuotaConfig) (now : Int) (ts : List Int) : List Int :=
  now :: prune cfg.windowDuration now ts

/-- Modelled from the spec: the atomic check-then-record pair tryRecordSend of
spec section 6, performing canSend and, on Allowed, recordSend in one step. -/
def tryRecordSend (cfg : QuotaConfig) (now : Int) (ts : List Int) :
    SendAnswer × List Int :=
  if (prune cfg.windowDuration now ts).length < cfg.maxSendsPerWindow then
    (SendAnswer.Allowed, now :: prune cfg.windowDuration now ts)
  else (SendAnswer.Throttled, prune cfg.windowDuration now ts)

/-- One quota operation of a caller: a lone canSend query, or a send, namely a
successful canSend immediately followed by its paired recordSend. -/
inductive QOp
  | check (t : Int)
  | send (t : Int)
  deriving DecidableEq

/-- Timestamp carried by a quota operation. -/
def opTime : QOp → Int
  | QOp.check t => t
  | QOp.send t => t

/-- Run the operations against a quota state, requiring every send to consist
of a canSend that answered Allowed followed by its paired recordSend (so every
recordSend consumes exactly one fresh Allowed answer). -/
def validTrace (cfg : QuotaConfig) : List Int → List QOp → Bool
  | _, [] => true
  | st, QOp.check t :: ops => validTrace cfg (canSend cfg t st).2 ops
  | st, QOp.send t :: ops =>
      decide ((canSend cfg t st).1 = SendAnswer.Allowed) &&
        validTrace cfg (recordSend cfg t (canSend cfg t st).2) ops

/-- The timestamps recorded by the sends of an operation sequence. -/
def sends : List QOp → List Int
  | [] => []
  | QOp.check _ :: ops => sends ops
  | QOp.send t :: ops => t :: sends ops

/-- The operation times are non-decreasing and bounded below by t0. -/
def lbMono : Int → List QOp → Bool
  | _, [] => true
  | t0, op :: ops => decide (t0 ≤ opTime op) && lbMono (opTime op) ops

/-- Membership of a timestamp in the trailing window of length w ending at T. -/
def inWindow (w T s : Int) : Bool := decide (T - w ≤ s) && decide (s ≤ T)

/-- Number of recorded timestamps falling inside the trailing window of
length w ending at T. -/
def windowCount (w T : Int) (hist : List Int) : Nat :=
  hist.countP (inWindow w T)

/-- Where the contact view leaves the browser. -/
inductive ContactOutcome
  | redirectEditProfile
  | renderContactForm
  | redirectUserProfile
  deriving DecidableEq

/-- Observable effects of one contact request: whether an email was delivered,
whether the message_sent signal fired, the sender's quota state afterwards,
and the response. -/
structure ContactResult where
  emailDelivered : Bool
  messageSentFired : Bool
  quota : List Int
  outcome : ContactOutcome
  deriving DecidableEq

/-- The contact view, lines 142-172: a sender without an email address is
turned away at once; otherwise the quota is consulted for the warning banner,
and on a valid POST whose second quota check answers Allowed the mail is sent,
the message_sent signal fires and the send is recorded.  The quota operations
are the spec-modelled canSend and recordSend above. -/
def contact (cfg : QuotaConfig) (senderEmail : String) (now : Int)
    (quota : List Int) (isPost : Bool) (formValid : Bool) : ContactResult :=
  if senderEmail = "" then
    ⟨false, false, quota, ContactOutcome.redirectEditProfile⟩
  else
    let afterWarn := (canSend cfg now quota).2
    if isPost = false then
      ⟨false, false, afterWarn, ContactOutcome.renderContactForm⟩
    else if formValid && decide ((canSend cfg now afterWarn).1 = SendAnswer.Allowed) then
      ⟨true, true, recordSend cfg now (canSend cfg now afterWarn).2,
        ContactOutcome.redirectUserProfile⟩
    else
      ⟨false, false, (canSend cfg now afterWarn).2, ContactOutcome.renderContactForm⟩

/-! Helper lemmas about the embedding. -/

theorem filter_swap {α : Type} (f g : α → Bool) (l : List α) :
    (l.filter f).filter g = (l.filter g).filter f := by
  rw [List.filter_filter, List.filter_filter]
  apply List.filter_congr
  intro a _
  exact Bool.and_comm (g a) (f a)

theorem mem_foldl_filter {α β : Type} (f : β → α → Bool) (tags : List β)
    (users : List α) (p : α) :
    p ∈ tags.foldl (fun us tag => us.filter (fun q => f tag q)) users ↔
      p ∈ users ∧ ∀ tag ∈ tags, f tag p = true := by
  induction tags generalizing users with
  | nil => simp
  | cons t ts ih =>
    simp only [List.foldl_cons, ih, List.mem_filter, List.mem_cons, forall_eq_or_imp]
    tauto

theorem foldl_filter_swap {α β : Type} (f : β → α → Bool) (g : α → Bool)
    (tags : List β) (users : List α) :
    tags.foldl (fun us tag => us.filter (fun q => f tag q)) (users.filter g) =
      (tags.foldl (fun us tag => us.filter (fun q => f tag q)) users).filter g := by
  induction tags generalizing users with
  | nil => rfl
  | cons t ts ih =>
    simp only [List.foldl_cons]
    rw [filter_swap g (fun q => f t q) users, ih]

theorem applySkillFilter_filter (skills : String) (g : Profile → Bool)
    (users : List Profile) :
    applySkillFilter skills (users.filter g) =
      (applySkillFilter skills users).filter g := by
  unfold applySkillFilter
  split
  · exact foldl_filter_swap (fun tag q => icontains q.skills tag) g _ users
  · rfl

theorem applySkillFilter_applyRoleFilter (skills position : String)
    (users : List Profile) :
    applySkillFilter skills (applyRoleFilter position users) =
      applyRoleFilter position (applySkillFilter skills users) := by
  unfold applyRoleFilter
  split
  · exact applySkillFilter_filter skills _ users
  · rfl

theorem applySkillFilter_applyNameFilter (skills name : String)
    (users : List Profile) :
    applySkillFilter skills (applyNameFilter name users) =
      applyNameFilter name (applySkillFilter skills users) := by
  unfold applyNameFilter
  split
  · exact applySkillFilter_filter skills _ users
  · rfl

theorem preFilterSpec_eq_preFilter (pop : List Profile) (q : SearchQuery) :
    preFilterSpec pop q = preFilter pop q := by
  unfold preFilterSpec preFilter
  rw [applySkillFilter_applyNameFilter, applySkillFilter_applyRoleFilter]

theorem mem_of_applySkillFilter {skills : String} {users : List Profile}
    {p : Profile} (h : p ∈ applySkillFilter skills users) : p ∈ users := by
  unfold applySkillFilter at h
  split at h
  · exact ((mem_foldl_filter (fun tag q => icontains q.skills tag) _ users p).1 h).1
  · exact h

theorem mem_of_applyRoleFilter {position : String} {users : List Profile}
    {p : Profile} (h : p ∈ applyRoleFilter position users) : p ∈ users := by
  unfold applyRoleFilter at h
  split at h
  · exact (List.mem_filter.1 h).1
  · exact h

theorem mem_of_applyNameFilter {name : String} {users : List Profile}
    {p : Profile} (h : p ∈ applyNameFilter name users) : p ∈ users := by
  unfold applyNameFilter at h
  split at h
  · exact (List.mem_filter.1 h).1
  · exact h

theorem mem_of_search_by_distance {d : Coord → Coord → Rat} {o : Coord}
    {r : Rat} {users : List Profile} {p : Profile}
    (h : p ∈ search_by_distance d o r users) : p ∈ users := by
  unfold search_by_distance at h
  have h2 := (List.perm_insertionSort (distRel d o) _).subset h
  exact (List.mem_filter.1 h2).1

theorem mem_of_preFilter {pop : List Profile} {q : SearchQuery} {p : Profile}
    (h : p ∈ preFilter pop q) : p ∈ excludeUser q.excludeIdentity pop :=
  mem_of_applySkillFilter (mem_of_applyRoleFilter (mem_of_applyNameFilter h))

theorem prune_prune (w t n : Int) (h : t ≤ n) (ts : List Int) :
    prune w n (prune w t ts) = prune w n ts := by
  unfold prune
  rw [List.filter_filter]
  apply List.filter_congr
  intro a _
  by_cases h1 : n - w ≤ a
  · have h2 : t - w ≤ a := by omega
    simp [h1, h2]
  · simp [h1]

theorem canSend_snd (cfg : QuotaConfig) (now : Int) (ts : List Int) :
    (canSend cfg now ts).2 = prune cfg.windowDuration now ts := rfl

theorem canSend_allowed_iff (cfg : QuotaConfig) (now : Int) (ts : List Int) :
    (canSend cfg now ts).1 = SendAnswer.Allowed ↔
      (prune cfg.windowDuration now ts).length < cfg.maxSendsPerWindow := by
  unfold canSend
  dsimp only
  split
  · simp [*]
  · simp [*]

theorem quota_aux (cfg : QuotaConfig) (ops : List QOp) :
    ∀ (st hist : List Int) (t0 : Int),
      (∀ s ∈ hist, s ≤ t0) →
      List.Subperm
        (hist.filter (fun s => decide (t0 - cfg.windowDuration ≤ s))) st →
      (∀ T2, windowCount cfg.windowDuration T2 hist ≤ cfg.maxSendsPerWindow) →
      validTrace cfg st ops = true →
      lbMono t0 ops = true →
      ∀ T, (sends ops).countP (inWindow cfg.windowDuration T) +
          hist.countP (inWindow cfg.windowDuration T) ≤ cfg.maxSendsPerWindow := by
  induction ops with
  | nil =>
    intro st hist t0 _ _ hcount _ _ T
    simpa [sends, windowCount] using hcount T
  | cons op ops ih =>
    intro st hist t0 hle hsub hcount hv hm T
    cases op with
    | check t =>
      simp only [lbMono, opTime, Bool.and_eq_true, decide_eq_true_eq] at hm
      obtain ⟨hm1, hm2⟩ := hm
      simp only [validTrace, canSend_snd] at hv
      have hfe : hist.filter (fun s => decide (t - cfg.windowDuration ≤ s)) =
          (hist.filter (fun s => decide (t0 - cfg.windowDuration ≤ s))).filter
            (fun s => decide (t - cfg.windowDuration ≤ s)) := by
        rw [List.filter_filter]
        apply List.filter_congr
        intro a _
        by_cases h1 : t - cfg.windowDuration ≤ a
        · have h2 : t0 - cfg.windowDuration ≤ a := by omega
          simp [h1, h2]
        · simp [h1]
      have hsubT : List.Subperm
          (hist.filter (fun s => decide (t - cfg.windowDuration ≤ s)))
          (prune cfg.windowDuration t st) := by
        rw [hfe]
        exact hsub.filter (fun s => decide (t - cfg.windowDuration ≤ s))
      have hgoal := ih (prune cfg.windowDuration t st) hist t
        (fun s hs => (hle s hs).trans hm1) hsubT hcount hv hm2 T
      simpa [sends] using hgoal
    | send t =>
      simp only [lbMono, opTime, Bool.and_eq_true, decide_eq_true_eq] at hm
      obtain ⟨hm1, hm2⟩ := hm
      simp only [validTrace, Bool.and_eq_true, decide_eq_true_eq] at hv
      obtain ⟨hv1, hv2⟩ := hv
      have hguard := (canSend_allowed_iff cfg t st).1 hv1
      have hstate : recordSend cfg t (canSend cfg t st).2 =
          t :: prune cfg.windowDuration t st := by
        rw [canSend_snd]
        unfold recordSend
        rw [prune_prune _ _ _ (le_refl t)]
      rw [hstate] at hv2
      have hfe : hist.filter (fun s => decide (t - cfg.windowDuration ≤ s)) =
          (hist.filter (fun s => decide (t0 - cfg.windowDuration ≤ s))).filter
            (fun s => decide (t - cfg.windowDuration ≤ s)) := by
        rw [List.filter_filter]
        apply List.filter_congr
        intro a _
        by_cases h1 : t - cfg.windowDuration ≤ a
        · have h2 : t0 - cfg.windowDuration ≤ a := by omega
          simp [h1, h2]
        · simp [h1]
      have hsubT : List.Subperm
          (hist.filter (fun s => decide (t - cfg.windowDuration ≤ s)))
          (prune cfg.windowDuration t st) := by
        rw [hfe]
        exact hsub.filter (fun s => decide (t - cfg.windowDuration ≤ s))
      have hkey : (hist.filter
          (fun s => decide (t - cfg.windowDuration ≤ s))).length <
          cfg.maxSendsPerWindow := lt_of_le_of_lt hsubT.length_le hguard
      have hsub2 : List.Subperm
          ((t :: hist).filter (fun s => decide (t - cfg.windowDuration ≤ s)))
          (t :: prune cfg.windowDuration t st) := by
        rw [List.filter_cons]
        by_cases hw : t - cfg.windowDuration ≤ t
        · simp only [hw, decide_eq_true_eq, if_pos]
          exact (List.subperm_cons t).2 hsubT
        · rw [if_neg (by simpa using hw)]
          exact hsubT.trans List.Subperm.cons_self
      have hcount2 : ∀ T2, windowCount cfg.windowDuration T2 (t :: hist) ≤
          cfg.maxSendsPerWindow := by
        intro T2
        unfold windowCount
        rw [List.countP_cons]
        by_cases hin : inWindow cfg.windowDuration T2 t = true
        · have hmono : ∀ a ∈ hist, inWindow cfg.windowDuration T2 a = true →
              decide (t - cfg.windowDuration ≤ a) = true := by
            intro a _ ha
            simp only [inWindow, Bool.and_eq_true, decide_eq_true_eq] at ha hin ⊢
            omega
          have hle2 : hist.countP (inWindow cfg.windowDuration T2) ≤
              (hist.filter (fun s => decide (t - cfg.windowDuration ≤ s))).length := by
            rw [← List.countP_eq_length_filter]
            exact List.countP_mono_left hmono
          simp only [hin, if_true]
          omega
        · simp [hin]
          have hc := hcount T2
          unfold windowCount at hc
          omega
      have hgoal := ih (t :: prune cfg.windowDuration t st) (t :: hist) t
        (fun s hs => by
          rcases List.mem_cons.1 hs with h | h
          · exact le_of_eq h
          · exact (hle s h).trans hm1)
        hsub2 hcount2 hv2 hm2 T
      simp only [sends, List.countP_cons] at hgoal ⊢
      omega

theorem search_by_distance_mem {d : Coord → Coord → Rat} {o : Coord} {r : Rat}
    {users : List Profile} {p : Profile}
    (hp : p ∈ search_by_distance d o r users) :
    ∃ c, p.location = some c ∧ d o c ≤ r := by
  unfold search_by_distance at hp
  have hmem := (List.perm_insertionSort (distRel d o) _).subset hp
  have h2 := (List.mem_filter.1 hmem).2
  unfold withinRadius at h2
  cases hc : p.location with
  | none => rw [hc] at h2; simp at h2
  | some c =>
    rw [hc] at h2
    exact ⟨c, rfl, by simpa using h2⟩

theorem search_by_distance_sorted (d : Coord → Coord → Rat) (o : Coord)
    (r : Rat) (users : List Profile) :
    List.Sorted (distRel d o) (search_by_distance d o r users) :=
  List.sorted_insertionSort (distRel d o) _

theorem applySkillFilter_empty (users : List Profile) :
    applySkillFilter ("") users = users := by
  unfold applySkillFilter
  rw [if_neg (by simp)]

theorem applyRoleFilter_empty (users : List Profile) :
    applyRoleFilter ("") users = users := by
  unfold applyRoleFilter
  rw [if_neg (by simp)]

theorem applyNameFilter_empty (users : List Profile) :
    applyNameFilter ("") users = users := by
  unfold applyNameFilter
  rw [if_neg (by simp)]

/-! Concrete data used by the witnesses. -/

/-- A concrete computable distance function for witnesses: squared Euclidean
distance on the raw coordinates. -/
def sqDist (a b : Coord) : Rat :=
  (a.lat - b.lat) * (a.lat - b.lat) + (a.lon - b.lon) * (a.lon - b.lon)

/-- Example profile record used by the witnesses. -/
def pAnn : Profile := ⟨1, "Ann", "dev", "go,rust", some ⟨0, 1⟩⟩

/-- Second example profile record used by the witnesses. -/
def pBob : Profile := ⟨2, "Bob", "dev", "python", some ⟨0, 2⟩⟩

/-- Example query with every filter blank and no location. -/
def qEmpty : SearchQuery := ⟨0, "", "", "", none, 5⟩

/-- Example query with only a location (and radius) set. -/
def qLoc : SearchQuery := ⟨0, "", "", "", some ⟨0, 0⟩, 5⟩

/-! The claims. -/

/-- C1: for every query with an origin (and radius) set, every record in the
search result carries a location whose distance to the origin is at most the
radius — so a record lacking a location never appears — and the result is
sorted by ascending distance with ties broken by ascending identity. -/
theorem search_distance_filtered_sorted (d : Coord → Coord → Rat)
    (pop : List Profile) (q : SearchQuery) (o : Coord)
    (h : q.location = some o) :
    (∀ p ∈ search d pop q, ∃ c, p.location = some c ∧
        d o c ≤ q.location_range) ∧
      List.Sorted (distRel d o) (search d pop q) := by
  have hs : search d pop q =
      search_by_distance d o q.location_range (preFilter pop q) := by
    unfold search
    rw [h]
  rw [hs]
  exact ⟨fun p hp => search_by_distance_mem hp,
    search_by_distance_sorted d o _ _⟩

/-- Witness for C1 at a concrete population and query. -/
theorem search_distance_filtered_sorted_witness :
    qLoc.location = some ⟨0, 0⟩ ∧
      ((∀ p ∈ search sqDist [pAnn] qLoc, ∃ c, p.location = some c ∧
          sqDist ⟨0, 0⟩ c ≤ qLoc.location_range) ∧
        List.Sorted (distRel sqDist ⟨0, 0⟩) (search sqDist [pAnn] qLoc)) :=
  ⟨rfl, search_distance_filtered_sorted sqDist [pAnn] qLoc ⟨0, 0⟩ rfl⟩

/-- C4: with a non-empty skills field, a record passes the skill filter iff
every requested tag, split on commas and whitespace-stripped, is a
case-insensitive substring of the record's skills string taken as a whole; in
particular the requested tag go matches a skills string containing mongo. -/
theorem skill_filter_matches_iff (skills : String) (users : List Profile)
    (p : Profile) (h : skills ≠ "") :
    (p ∈ applySkillFilter skills users ↔
      p ∈ users ∧ ∀ tag ∈ (skills.splitOn (",")).map pyStrip,
        icontains p.skills tag = true) ∧
      icontains ("mongo") ("go") = true := by
  constructor
  · unfold applySkillFilter
    rw [if_pos h]
    exact mem_foldl_filter (fun tag q => icontains q.skills tag) _ users p
  · decide

/-- Witness for C4 at a concrete skills string and population. -/
theorem skill_filter_matches_iff_witness :
    ("go" : String) ≠ "" ∧
      ((pAnn ∈ applySkillFilter ("go") [pAnn] ↔ pAnn ∈ [pAnn] ∧
          ∀ tag ∈ (("go" : String).splitOn (",")).map pyStrip,
            icontains pAnn.skills tag = true) ∧
        icontains ("mongo") ("go") = true) :=
  ⟨by decide, skill_filter_matches_iff ("go") [pAnn] pAnn (by decide)⟩

/-- C5: applying the four filter stages in the spec's fixed order (role, name,
skills, distance) yields the very same result sequence — hence the same result
set — as the order the code uses (skills, role, name, distance). -/
theorem filter_order_irrelevant (d : Coord → Coord → Rat) (pop : List Profile)
    (q : SearchQuery) : searchSpecOrder d pop q = search d pop q := by
  unfold searchSpecOrder search
  rw [preFilterSpec_eq_preFilter]

/-- C6: the requester's own record never appears in its own search results. -/
theorem search_excludes_requester (d : Coord → Coord → Rat)
    (pop : List Profile) (q : SearchQuery) (p : Profile)
    (h : p ∈ search d pop q) : p.identity ≠ q.excludeIdentity := by
  have hpre : p ∈ preFilter pop q := by
    unfold search at h
    cases hq : q.location with
    | some o =>
      rw [hq] at h
      exact mem_of_search_by_distance h
    | none =>
      rw [hq] at h
      exact h
  have hex := mem_of_preFilter hpre
  unfold excludeUser at hex
  have h2 := (List.mem_filter.1 hex).2
  simpa using h2

/-- Witness for C6 at a concrete population and query. -/
theorem search_excludes_requester_witness :
    pAnn ∈ search sqDist [pAnn] qEmpty ∧
      pAnn.identity ≠ qEmpty.excludeIdentity :=
  ⟨by decide, search_excludes_requester sqDist [pAnn] qEmpty pAnn (by decide)⟩

/-- C7: a blank skills field disables the skill filter entirely: the result
sequence equals that of the pipeline with the skill stage omitted. -/
theorem empty_skills_disables_filter (d : Coord → Coord → Rat)
    (pop : List Profile) (q : SearchQuery) (h : q.skills = "") :
    search d pop q = searchNoSkill d pop q := by
  have hstage : applySkillFilter q.skills (excludeUser q.excludeIdentity pop) =
      excludeUser q.excludeIdentity pop := by
    rw [h]
    exact applySkillFilter_empty _
  unfold search searchNoSkill preFilter preFilterNoSkill
  rw [hstage]

/-- Witness for C7 at a concrete population and query. -/
theorem empty_skills_disables_filter_witness :
    qEmpty.skills = "" ∧
      search sqDist [pAnn] qEmpty = searchNoSkill sqDist [pAnn] qEmpty :=
  ⟨rfl, empty_skills_disables_filter sqDist [pAnn] qEmpty rfl⟩

/-- C8: an empty query (no skill, role, name or location filter) returns the
full population minus the requester's record, in snapshot order. -/
theorem empty_query_full_population (d : Coord → Coord → Rat)
    (pop : List Profile) (q : SearchQuery) (h1 : q.skills = "")
    (h2 : q.position = "") (h3 : q.name = "") (h4 : q.location = none) :
    search d pop q =
      pop.filter (fun p => decide (p.identity ≠ q.excludeIdentity)) := by
  have hs : search d pop q = preFilter pop q := by
    unfold search
    rw [h4]
  rw [hs]
  unfold preFilter
  rw [h1, h2, h3, applySkillFilter_empty, applyRoleFilter_empty,
    applyNameFilter_empty]
  rfl

/-- Witness for C8 at a concrete population and query. -/
theorem empty_query_full_population_witness :
    qEmpty.skills = "" ∧ qEmpty.position = "" ∧ qEmpty.name = "" ∧
      qEmpty.location = none ∧
      search sqDist [pAnn, pBob] qEmpty =
        [pAnn, pBob].filter (fun p => decide (p.identity ≠ qEmpty.excludeIdentity)) :=
  ⟨rfl, rfl, rfl, rfl,
    empty_query_full_population sqDist [pAnn, pBob] qEmpty rfl rfl rfl rfl⟩

/-- C9: canSend is a pure query over the observable quota state: its resulting
state is a sublist of the input (it only prunes, never records), a repeated
call at the same time returns the same answer and state, and it never changes
what a subsequent call, at the same or a later time, returns. -/
theorem canSend_pure_query (cfg : QuotaConfig) (ts : List Int) (t n : Int)
    (h : t ≤ n) :
    List.Sublist (canSend cfg t ts).2 ts ∧
      canSend cfg t (canSend cfg t ts).2 = canSend cfg t ts ∧
      canSend cfg n (canSend cfg t ts).2 = canSend cfg n ts := by
  refine ⟨?_, ?_, ?_⟩
  · rw [canSend_snd]
    exact List.filter_sublist ts
  · rw [canSend_snd]
    unfold canSend
    rw [prune_prune _ _ _ (le_refl t)]
  · rw [canSend_snd]
    unfold canSend
    rw [prune_prune _ _ _ h]

/-- Witness for C9 at a concrete configuration and state. -/
theorem canSend_pure_query_witness :
    (20 : Int) ≤ 30 ∧
      (List.Sublist (canSend ⟨60, 3⟩ 20 [0, 10]).2 [0, 10] ∧
        canSend ⟨60, 3⟩ 20 (canSend ⟨60, 3⟩ 20 [0, 10]).2 =
          canSend ⟨60, 3⟩ 20 [0, 10] ∧
        canSend ⟨60, 3⟩ 30 (canSend ⟨60, 3⟩ 20 [0, 10]).2 =
          canSend ⟨60, 3⟩ 30 [0, 10]) :=
  ⟨by decide, canSend_pure_query ⟨60, 3⟩ [0, 10] 20 30 (by decide)⟩

/-- C10: a sender whose own email address is unset is turned away before the
quota is consulted and before any send is attempted: no email is delivered,
the message_sent signal does not fire, the quota state is unchanged, and the
response is the redirect to profile editing. -/
theorem contact_no_email_rejected (cfg : QuotaConfig) (senderEmail : String)
    (now : Int) (quota : List Int) (isPost formValid : Bool)
    (h : senderEmail = "") :
    contact cfg senderEmail now quota isPost formValid =
      ⟨false, false, quota, ContactOutcome.redirectEditProfile⟩ := by
  unfold contact
  rw [if_pos h]

/-- Witness for C10 at a concrete request. -/
theorem contact_no_email_rejected_witness :
    ("" : String) = "" ∧
      contact ⟨60, 3⟩ ("") 0 [0] true true =
        ⟨false, false, [0], ContactOutcome.redirectEditProfile⟩ :=
  ⟨rfl, contact_no_email_rejected ⟨60, 3⟩ "" 0 [0] true true rfl⟩

/-- C3: with three sends allowed per sixty-second window, tryRecordSend at
times 0, 10 and 20 answers Allowed, a fourth at 30 answers Throttled, and a
fifth at 61 answers Allowed again, the final state showing the entry for time
0 expired from the window. -/
theorem quota_concrete_scenario :
    (tryRecordSend ⟨60, 3⟩ 0 ([] : List Int)).1 = SendAnswer.Allowed ∧
      (tryRecordSend ⟨60, 3⟩ 10 (tryRecordSend ⟨60, 3⟩ 0 ([] : List Int)).2).1 =
        SendAnswer.Allowed ∧
      (tryRecordSend ⟨60, 3⟩ 20 (tryRecordSend ⟨60, 3⟩ 10
        (tryRecordSend ⟨60, 3⟩ 0 ([] : List Int)).2).2).1 = SendAnswer.Allowed ∧
      (tryRecordSend ⟨60, 3⟩ 30 (tryRecordSend ⟨60, 3⟩ 20 (tryRecordSend ⟨60, 3⟩ 10
        (tryRecordSend ⟨60, 3⟩ 0 ([] : List Int)).2).2).2).1 =
        SendAnswer.Throttled ∧
      (tryRecordSend ⟨60, 3⟩ 61 (tryRecordSend ⟨60, 3⟩ 30 (tryRecordSend ⟨60, 3⟩ 20
        (tryRecordSend ⟨60, 3⟩ 10 (tryRecordSend ⟨60, 3⟩ 0 ([] : List Int)).2).2).2).2).1 =
        SendAnswer.Allowed ∧
      (tryRecordSend ⟨60, 3⟩ 61 (tryRecordSend ⟨60, 3⟩ 30 (tryRecordSend ⟨60, 3⟩ 20
        (tryRecordSend ⟨60, 3⟩ 10 (tryRecordSend ⟨60, 3⟩ 0 ([] : List Int)).2).2).2).2).2 =
        [61, 20, 10] := by
  decide

/-- C2 (amended): for any configuration and any properly paired operation
sequence whose timestamps are non-decreasing, every trailing window of length
windowDuration holds at most maxSendsPerWindow recorded send timestamps. -/
theorem quota_window_invariant (cfg : QuotaConfig) (ops : List QOp) (t0 : Int)
    (hv : validTrace cfg [] ops = true) (hm : lbMono t0 ops = true) (T : Int) :
    windowCount cfg.windowDuration T (sends ops) ≤ cfg.maxSendsPerWindow := by
  have h := quota_aux cfg ops [] [] t0 (by intro s hs; cases hs)
    (by simp) (by intro T2; simp [windowCount]) hv hm T
  unfold windowCount
  simpa using h

/-- Witness for the amended C2 at a concrete paired monotone sequence. -/
theorem quota_window_invariant_witness :
    validTrace ⟨60, 3⟩ []
        [QOp.send 0, QOp.send 10, QOp.send 20, QOp.check 30] = true ∧
      lbMono 0 [QOp.send 0, QOp.send 10, QOp.send 20, QOp.check 30] = true ∧
      windowCount 60 20
        (sends [QOp.send 0, QOp.send 10, QOp.send 20, QOp.check 30]) ≤ 3 :=
  ⟨by decide, by decide,
    quota_window_invariant ⟨60, 3⟩
      [QOp.send 0, QOp.send 10, QOp.send 20, QOp.check 30] 0
      (by decide) (by decide) 20⟩

/-- C2 counterexample: a properly paired sequence of sends, each consuming a
fresh Allowed answer, whose timestamps are not monotone: after sends at times
100, 130, 300 and 159 the trailing sixty-second window ending at 159 holds
three recorded timestamps although the limit is two. -/
theorem quota_claim_counterexample :
    validTrace ⟨60, 2⟩ []
        [QOp.send 100, QOp.send 130, QOp.send 300, QOp.send 159] = true ∧
      ¬ windowCount 60 159
          (sends [QOp.send 100, QOp.send 130, QOp.send 300, QOp.send 159]) ≤ 2 := by
  decide

end Anthill
